import Mathlib

/-
Verification development for the text-analyzer backend.

The Python service (src/text_analyzer/services.py, models.py, main.py) is
shallowly embedded here.  Python strings are modeled as `List Char`
(ASCII-faithful: the concrete lexicons, stop words and templates in the
source are ASCII).  Python floats only ever carry the literal confidences
0.8 and 0.5 plus opaque capability scores, so they are modeled as `ℚ`.

External capabilities (the RAKE keyword ranker, the transformers sentiment
pipeline, the OpenAI chat completions) are opaque collaborators: they are
modeled as oracle functions stored in an `Env`, where `none` models the
Python exception / unavailability path that the source catches.  In CPython
`list(set(...))` iterates a hash table whose order is unspecified (and hash
randomization makes it process-dependent); it is modeled as an oracle
`setOrder : List (List Char) → List (List Char)` kept in the per-process
`Env`, constrained only where a claim needs it (`isSetListing`).  The one
per-call source of randomness, `random.choice(themes)` in
`_demo_moral_extraction`, is modeled as an extra `Nat` argument `r`
selecting `themes[r % len(themes)]`.
-/

namespace TextAnalyzer

/-! ## Python string primitives over `List Char` -/

/-- Python `str.lower()` (ASCII). -/
def pyLower (s : List Char) : List Char := s.map Char.toLower

/-- Python `str.strip()` with no arguments: drop leading and trailing whitespace. -/
def pyStrip (s : List Char) : List Char :=
  ((s.dropWhile Char.isWhitespace).reverse.dropWhile Char.isWhitespace).reverse

/-- Helper for `splitWs`: accumulates the current word (reversed). -/
def splitWsAux : List Char → List Char → List (List Char)
  | [], cur => if cur = [] then [] else [cur.reverse]
  | c :: rest, cur =>
    if c.isWhitespace then
      if cur = [] then splitWsAux rest [] else cur.reverse :: splitWsAux rest []
    else splitWsAux rest (c :: cur)

/-- Python `str.split()` with no arguments: split on whitespace runs, no empty parts. -/
def splitWs (s : List Char) : List (List Char) := splitWsAux s []

/-- Helper for `splitOn`. -/
def splitOnAux (sep : Char) : List Char → List Char → List (List Char)
  | [], cur => [cur.reverse]
  | c :: rest, cur =>
    if c = sep then cur.reverse :: splitOnAux sep rest []
    else splitOnAux sep rest (c :: cur)

/-- Python `str.split(sep)` for a one-character separator: keeps empty parts. -/
def splitOn (sep : Char) (s : List Char) : List (List Char) := splitOnAux sep s []

/-- Python `sep.join(parts)` for a one-character separator. -/
def joinSep (sep : Char) : List (List Char) → List Char
  | [] => []
  | [w] => w
  | w :: ws => w ++ sep :: joinSep sep ws

/-- Python substring membership `p in s` on strings. -/
def containsSub (p : List Char) : List Char → Bool
  | [] => decide (p = [])
  | c :: rest => p.isPrefixOf (c :: rest) || containsSub p rest

/-- Number of positions at which `p` occurs as a substring of `s`
(every occurrence counted, overlaps included). -/
def countOccurrences (p : List Char) : List Char → Nat
  | [] => if p = [] then 1 else 0
  | c :: rest => (if p.isPrefixOf (c :: rest) then 1 else 0) + countOccurrences p rest

/-- Python `dict.get(key, default)` over an association list. -/
def lookupD (m : List (List Char × List Char)) (k d : List Char) : List Char :=
  match m.find? (fun kv => decide (kv.1 = k)) with
  | some kv => kv.2
  | none => d

/-- Helper for `specDedupFirstSeen`. -/
def dedupFirstSeenAux (seen : List (List Char)) : List (List Char) → List (List Char)
  | [] => []
  | x :: xs =>
    if x ∈ seen then dedupFirstSeenAux seen xs
    else x :: dedupFirstSeenAux (x :: seen) xs

/-- Deduplication preserving the order of first appearance.  This is the
spec-side reading of "deduplicate preserving first-seen order"; the source
`list(set(keywords))` is compared against it. -/
def specDedupFirstSeen (l : List (List Char)) : List (List Char) :=
  dedupFirstSeenAux [] l

/-- A listing of a Python `set(orig)`: duplicate-free and with exactly the
members of `orig`, in an order the language does not specify. -/
def isSetListing (orig listed : List (List Char)) : Prop :=
  listed.Nodup ∧ ∀ x, x ∈ listed ↔ x ∈ orig

/-! ## Fixed data from `services.py` -/

/-- Stop words of the fallback keyword extraction (`_extract_keywords`). -/
def common_words : List (List Char) :=
  ["the".data, "a".data, "an".data, "and".data, "or".data, "but".data,
   "in".data, "on".data, "at".data, "to".data, "for".data, "of".data,
   "with".data, "by".data, "is".data, "are".data, "was".data, "were".data]

/-- Positive lexicon of `_simple_sentiment_analysis`. -/
def positive_words : List (List Char) :=
  ["good".data, "great".data, "excellent".data, "amazing".data,
   "wonderful".data, "happy".data, "love".data, "nice".data,
   "beautiful".data, "perfect".data, "fantastic".data]

/-- Negative lexicon of `_simple_sentiment_analysis`. -/
def negative_words : List (List Char) :=
  ["bad".data, "terrible".data, "awful".data, "horrible".data, "sad".data,
   "hate".data, "angry".data, "worst".data, "disappointing".data, "ugly".data]

/-- Theme catalog of `_demo_moral_extraction`. -/
def themes : List (List Char) :=
  ["the importance of perseverance and determination in overcoming challenges".data,
   "the value of friendship, teamwork, and supporting one another".data,
   "learning from mistakes and using experiences for personal growth".data,
   "the power of kindness, empathy, and understanding others".data,
   "the significance of honesty, integrity, and doing what's right".data,
   "appreciating the simple things in life and finding contentment".data,
   "the courage to face fears and step outside comfort zones".data,
   "the wisdom in being patient and thinking before acting".data]

/-- Fixed message of `_demo_moral_extraction` for short input. -/
def tooShortMsg : List Char :=
  "The text is too short to extract a meaningful lesson.".data

/-- Placeholder keywords of the RAKE path of `_extract_keywords`. -/
def rakePlaceholder : List (List Char) :=
  ["meaningful".data, "content".data, "analysis".data]

/-- Placeholder keywords of the fallback path of `_extract_keywords`. -/
def fallbackPlaceholder : List (List Char) :=
  ["important".data, "key".data, "concepts".data]

/-- Instruction templates of the live path of `_transform_tone`. -/
def tone_instructions : List (List Char × List Char) :=
  [("formal".data, "Rewrite this formally and professionally:".data),
   ("informal".data, "Rewrite this casually like talking to a friend:".data),
   ("friendly".data, "Rewrite this in a warm, friendly way:".data),
   ("professional".data, "Rewrite this in a business-appropriate tone:".data),
   ("casual".data, "Rewrite this in a relaxed, everyday tone:".data),
   ("complaint".data, "Rewrite this as a formal complaint:".data),
   ("persuasive".data, "Rewrite this persuasively to convince someone:".data),
   ("academic".data, "Rewrite this in academic language:".data)]

/-- Bracketed tags of `_demo_tone_transformation`. -/
def tonePrefixes : List (List Char × List Char) :=
  [("formal".data, "[Formal Version] ".data),
   ("informal".data, "[Casual Version] ".data),
   ("friendly".data, "[Friendly Version] ".data),
   ("professional".data, "[Professional Version] ".data),
   ("casual".data, "[Relaxed Version] ".data),
   ("complaint".data, "[Formal Complaint] ".data),
   ("persuasive".data, "[Persuasive Version] ".data),
   ("academic".data, "[Academic Version] ".data)]

/-- The eight `ToneType` enum values of `models.py`, as strings. -/
def supportedTones : List (List Char) :=
  ["formal".data, "informal".data, "friendly".data, "professional".data,
   "casual".data, "complaint".data, "persuasive".data, "academic".data]

/-! ## Data model -/

/-- A sentiment label plus confidence (the label / score dict). -/
structure Sentiment where
  label : List Char
  score : ℚ
deriving DecidableEq, Repr

/-- Raw output of the transformers sentiment capability: a label from its
own label space plus a confidence. -/
structure SentCapResult where
  label : List Char
  score : ℚ
deriving DecidableEq, Repr

/-- Process-wide state of `TextAnalysisService`: the demo-mode flag and the
opaque capability handles.  `none` results model the exception paths the
source catches.  `setOrder` is the (process-fixed, unspecified) iteration
order CPython gives `list(set(...))`. -/
structure Env where
  demoMode : Bool
  rake : Option (List Char → Option (List (List Char)))
  transformers : List Char → Option SentCapResult
  openaiMoral : List Char → Option (List Char)
  openaiTone : List Char → Option (List Char)
  setOrder : List (List Char) → List (List Char)

/-- The dict returned by `analyze_text` (= `AnalysisResponse` of `models.py`). -/
structure AnalysisResult where
  moral : List Char
  keywords : List (List Char)
  transformed_text : Option (List Char)
  original_tone : List Char
  target_tone : Option (List Char)
  confidence : ℚ
deriving DecidableEq, Repr

/-! ## The service, stage by stage -/

/-- The tokens the fallback of `_extract_keywords` keeps before
deduplication: `[word for word in text.lower().split() if word not in
common_words and len(word) > 3]`. -/
def filteredTokens (text : List Char) : List (List Char) :=
  (splitWs (pyLower text)).filter (fun w => decide (w ∉ common_words ∧ 3 < w.length))

/-- Fallback branch of `_extract_keywords`:
`list(set(keywords))[:10] or ["important", "key", "concepts"]`. -/
def fallbackKeywords (setOrder : List (List Char) → List (List Char))
    (text : List Char) : List (List Char) :=
  let dd := (setOrder (filteredTokens text)).take 10
  if dd = [] then fallbackPlaceholder else dd

/-- `_extract_keywords`: RAKE (`self.rake`) when initialized and not raising,
otherwise the fallback.  Note the source never consults `demo_mode` here. -/
def extract_keywords (env : Env) (text : List Char) : List (List Char) :=
  match env.rake with
  | some rakeRanked =>
    match rakeRanked text with
    | some ranked =>
      let keywords := ranked.take 10
      if keywords = [] then rakePlaceholder else keywords
    | none => fallbackKeywords env.setOrder text
  | none => fallbackKeywords env.setOrder text

/-- `sum(1 for word in positive_words if word in text_lower)` — the number
of positive-lexicon words present in the (already lowered) text. -/
def positive_count (text_lower : List Char) : Nat :=
  (positive_words.filter (fun w => containsSub w text_lower)).length

/-- `sum(1 for word in negative_words if word in text_lower)`. -/
def negative_count (text_lower : List Char) : Nat :=
  (negative_words.filter (fun w => containsSub w text_lower)).length

/-- `_simple_sentiment_analysis`. -/
def simple_sentiment_analysis (text : List Char) : Sentiment :=
  let text_lower := pyLower text
  if positive_count text_lower > negative_count text_lower then
    ⟨"positive".data, 4/5⟩
  else if negative_count text_lower > positive_count text_lower then
    ⟨"negative".data, 4/5⟩
  else
    ⟨"neutral".data, 1/2⟩

/-- `_map_sentiment_to_tone`. -/
def map_sentiment_to_tone (sentiment_label : List Char) : List Char :=
  if containsSub "POSITIVE".data sentiment_label ∨
     containsSub "LABEL_1".data sentiment_label then "positive".data
  else if containsSub "NEGATIVE".data sentiment_label ∨
     containsSub "LABEL_0".data sentiment_label then "negative".data
  else "neutral".data

/-- `_analyze_sentiment`: transformers pipeline on `text[:512]` when the module
load and the call succeed, else the simple fallback.  The source never
consults `demo_mode` here either. -/
def analyze_sentiment (env : Env) (text : List Char) : Sentiment :=
  match env.transformers (text.take 512) with
  | some result => ⟨map_sentiment_to_tone result.label, result.score⟩
  | none => simple_sentiment_analysis text

/-- Prompt of the live path of `_extract_moral` (instruction + `text[:1500]`). -/
def moralPrompt (text : List Char) : List Char :=
  "Extract the moral or main lesson from this text in 1-2 sentences: ".data
    ++ text.take 1500

/-- `_demo_moral_extraction`; `r` models the `random.choice` draw. -/
def demo_moral_extraction (r : Nat) (text : List Char) : List Char :=
  if text.length < 20 then tooShortMsg
  else
    "This story teaches us about ".data ++ themes.getD (r % themes.length) []
      ++ ".".data

/-- `_extract_moral`: demo mode or a failed OpenAI call degrade to
`_demo_moral_extraction`; a successful call returns the stripped completion. -/
def extract_moral (env : Env) (r : Nat) (text : List Char) : List Char :=
  if env.demoMode then demo_moral_extraction r text
  else
    match env.openaiMoral (moralPrompt text) with
    | some content => pyStrip content
    | none => demo_moral_extraction r text

/-- Text shortening of `_demo_tone_transformation`. -/
def demoShorten (text : List Char) : List Char :=
  if text.length > 200 then
    let sentences := splitOn '.' text
    if sentences.length > 1 then joinSep '.' (sentences.take 2) ++ ['.']
    else text.take 197 ++ "...".data
  else text

/-- `_demo_tone_transformation`: bracket tag looked up by tone (default
`"[Rewritten] "`) followed by the shortened text. -/
def demo_tone_transformation (text target_tone : List Char) : List Char :=
  lookupD tonePrefixes target_tone "[Rewritten] ".data ++ demoShorten text

/-- `_transform_tone`: demo mode or a failed OpenAI call degrade to
`_demo_tone_transformation`. -/
def transform_tone (env : Env) (text target_tone : List Char) : List Char :=
  if env.demoMode then demo_tone_transformation text target_tone
  else
    let instruction := lookupD tone_instructions target_tone "Rewrite this text:".data
    let prompt := instruction ++ "\n\n".data ++ text.take 1500
    match env.openaiTone prompt with
    | some content => pyStrip content
    | none => demo_tone_transformation text target_tone

/-- `analyze_text`.  The `if target_tone:` truthiness test of the source is
false both for `None` and for the empty string. -/
def analyze_text (env : Env) (r : Nat) (text : List Char)
    (target_tone : Option (List Char)) : AnalysisResult :=
  let keywords := extract_keywords env text
  let tone_analysis := analyze_sentiment env text
  let moral := extract_moral env r text
  let transformed_text :=
    match target_tone with
    | none => none
    | some t => if t = [] then none else some (transform_tone env text t)
  { moral := moral
    keywords := keywords
    transformed_text := transformed_text
    original_tone := tone_analysis.label
    target_tone := target_tone
    confidence := tone_analysis.score }

/-- The `ToneType` enum of `models.py`. -/
inductive ToneType
  | formal | informal | friendly | professional | casual
  | complaint | persuasive | academic
deriving DecidableEq, Repr

/-- The `.value` of each `ToneType` member. -/
def ToneType.value : ToneType → List Char
  | .formal => "formal".data
  | .informal => "informal".data
  | .friendly => "friendly".data
  | .professional => "professional".data
  | .casual => "casual".data
  | .complaint => "complaint".data
  | .persuasive => "persuasive".data
  | .academic => "academic".data

/-- How the `/analyze` handler calls into the service (`main.py`):
`text_service.analyze_text(request.text, request.target_tone.value if
request.target_tone else None)`. -/
def analyze_request (env : Env) (r : Nat) (text : List Char)
    (target_tone : Option ToneType) : AnalysisResult :=
  analyze_text env r text (target_tone.map ToneType.value)

/-- Input validity enforced by the `/analyze` boundary in `main.py`:
`request.text.strip()` truthy and `len(request.text) <= 10000`. -/
def validInput (text : List Char) : Prop :=
  pyStrip text ≠ [] ∧ text.length ≤ 10000

/-! ## Concrete environments and spec-side readings used by particular claims -/

/-- A fully degraded process: demo mode, no RAKE, no transformers, no
OpenAI.  `setOrder` is instantiated with `List.dedup`, one legitimate
listing of a Python set. -/
def envDemo : Env :=
  { demoMode := true
    rake := none
    transformers := fun _ => none
    openaiMoral := fun _ => none
    openaiTone := fun _ => none
    setOrder := fun l => l.dedup }

/-- A live-mode process whose moral capability call succeeds but returns a
whitespace-only completion. -/
def envBlankMoral : Env :=
  { demoMode := false
    rake := none
    transformers := fun _ => none
    openaiMoral := fun _ => some "   ".data
    openaiTone := fun _ => none
    setOrder := fun l => l.dedup }

/-- A demo-mode process in which the RAKE handle and the transformers
module nonetheless loaded (the source initializes them independently of
the OpenAI key): the ranker returns one phrase, the sentiment pipeline
returns a raw POSITIVE label with confidence 0.99. -/
def envDemoWithNlp : Env :=
  { demoMode := true
    rake := some (fun _ => some ["ranked phrase".data])
    transformers := fun _ => some ⟨"POSITIVE".data, 99/100⟩
    openaiMoral := fun _ => none
    openaiTone := fun _ => none
    setOrder := fun l => l.dedup }

/-- Sentiment computed the way claim C4 words it, with every substring
occurrence of a lexicon word counted.  Spec-side reading, to be compared
with `simple_sentiment_analysis` from the source. -/
def specOccurrenceSentiment (text : List Char) : Sentiment :=
  let tl := pyLower text
  let pc := (positive_words.map (fun w => countOccurrences w tl)).sum
  let nc := (negative_words.map (fun w => countOccurrences w tl)).sum
  if pc > nc then ⟨"positive".data, 4/5⟩
  else if nc > pc then ⟨"negative".data, 4/5⟩
  else ⟨"neutral".data, 1/2⟩

/-- Content of the leading bracketed tag of a string: the characters after
the opening bracket and before the first closing bracket. -/
def leadingTag (s : List Char) : List Char :=
  (s.drop 1).takeWhile (fun c => decide (c ≠ ']'))

/-! ## General lemmas about the string primitives -/

theorem append_ne_nil_left {l : List Char} (r : List Char) (h : l ≠ []) :
    l ++ r ≠ [] := by
  cases l with
  | nil => exact absurd rfl h
  | cons x xs => simp

theorem isPrefixOf_append_self : ∀ l r : List Char, l.isPrefixOf (l ++ r) = true
  | [], _ => by simp [List.isPrefixOf]
  | x :: xs, r => by simp [List.isPrefixOf, isPrefixOf_append_self xs r]

theorem isPrefixOf_self (p : List Char) : p.isPrefixOf p = true := by
  have h := isPrefixOf_append_self p []
  rwa [List.append_nil] at h

theorem containsSub_self (p : List Char) : containsSub p p = true := by
  cases p with
  | nil => rfl
  | cons c rest => simp [containsSub, isPrefixOf_self]

/-- A pattern avoiding a character `c` is a prefix of `a ++ c :: b` exactly
when it is a prefix of `a`. -/
theorem isPrefixOf_append_sep {c : Char} :
    ∀ (p a : List Char) (b : List Char), c ∉ p →
      p.isPrefixOf (a ++ c :: b) = p.isPrefixOf a
  | [], a, b, _ => by simp [List.isPrefixOf]
  | p0 :: p', [], b, hc => by
    have h0 : ¬p0 = c := fun h => hc (by simp [h])
    simp [List.isPrefixOf, h0]
  | p0 :: p', x :: a', b, hc => by
    have hc' : c ∉ p' := fun h => hc (List.mem_cons_of_mem _ h)
    simp [List.isPrefixOf, isPrefixOf_append_sep p' a' b hc']

theorem isPrefixOf_nil_eq {p : List Char} (hp : p ≠ []) :
    p.isPrefixOf [] = false := by
  cases p with
  | nil => exact absurd rfl hp
  | cons p0 p' => rfl

/-- Occurrences of a nonempty pattern avoiding `c` in `a ++ c :: b` are
occurrences in `a` or in `b`. -/
theorem containsSub_append_sep {c : Char} :
    ∀ (p a : List Char) (b : List Char), p ≠ [] → c ∉ p →
      containsSub p (a ++ c :: b) = (containsSub p a || containsSub p b)
  | p, [], b, hp, hc => by
    have h1 := isPrefixOf_append_sep p [] b hc
    rw [List.nil_append] at h1
    rw [isPrefixOf_nil_eq hp] at h1
    simp [containsSub, h1, hp]
  | p, x :: a', b, hp, hc => by
    have h1 := isPrefixOf_append_sep p (x :: a') b hc
    rw [List.cons_append] at h1 ⊢
    rw [containsSub, containsSub, containsSub_append_sep p a' b hp hc, h1,
      Bool.or_assoc]

/-- A nonempty pattern avoiding the separator occurs in a join exactly when
it occurs in one of the parts. -/
theorem containsSub_joinSep {c : Char} (p : List Char) (hp : p ≠ []) (hc : c ∉ p) :
    ∀ ws : List (List Char), containsSub p (joinSep c ws) = ws.any (containsSub p)
  | [] => by simp [joinSep, containsSub, hp]
  | [w] => by simp [joinSep]
  | w :: w' :: ws => by
    rw [joinSep, containsSub_append_sep p w _ hp hc,
      containsSub_joinSep p hp hc (w' :: ws)]
    · simp [List.any_cons, Bool.or_assoc]
    · simp

theorem map_joinSep (f : Char → Char) (c : Char) :
    ∀ ws : List (List Char),
      (joinSep c ws).map f = joinSep (f c) (ws.map (List.map f))
  | [] => rfl
  | [w] => rfl
  | w :: w' :: ws => by
    rw [joinSep, List.map_append, List.map_cons, map_joinSep f c (w' :: ws)]
    · rfl
    · simp

/-- `takeWhile` over an append stops inside the left part as soon as the
left part has an element violating the predicate. -/
theorem takeWhile_append_stop (p : Char → Bool) :
    ∀ l r : List Char, l.any (fun x => !p x) = true →
      (l ++ r).takeWhile p = l.takeWhile p
  | [], r, h => by simp at h
  | x :: l', r, h => by
    cases hx : p x with
    | false => simp [List.takeWhile_cons, hx]
    | true =>
      have h' : l'.any (fun x => !p x) = true := by
        simp [List.any_cons, hx] at h
        simpa using h
      simp [List.takeWhile_cons, hx, takeWhile_append_stop p l' r h']

/-! ## Facts about the concrete lexicons -/

theorem positive_words_wf :
    ∀ w ∈ positive_words, w ≠ [] ∧ ' ' ∉ w ∧ pyLower w = w := by decide

theorem negative_words_wf :
    ∀ n ∈ negative_words, n ≠ [] ∧ ' ' ∉ n ∧ pyLower n = n := by decide

/-- No negative-lexicon word occurs inside any positive-lexicon word. -/
theorem no_negative_inside_positive :
    ∀ w ∈ positive_words, ∀ n ∈ negative_words, containsSub n w = false := by decide

/-- No positive-lexicon word occurs inside any negative-lexicon word. -/
theorem no_positive_inside_negative :
    ∀ n ∈ negative_words, ∀ w ∈ positive_words, containsSub w n = false := by decide

/-! ## Branch lemmas for the sentiment fallback -/

theorem simple_sentiment_eq_positive {text : List Char}
    (h : negative_count (pyLower text) < positive_count (pyLower text)) :
    simple_sentiment_analysis text = ⟨"positive".data, 4/5⟩ := by
  simp [simple_sentiment_analysis, h]

theorem simple_sentiment_eq_negative {text : List Char}
    (h : positive_count (pyLower text) < negative_count (pyLower text)) :
    simple_sentiment_analysis text = ⟨"negative".data, 4/5⟩ := by
  have h' : ¬negative_count (pyLower text) < positive_count (pyLower text) :=
    Nat.lt_asymm h
  simp [simple_sentiment_analysis, h, h']

theorem simple_sentiment_eq_neutral {text : List Char}
    (h : positive_count (pyLower text) = negative_count (pyLower text)) :
    simple_sentiment_analysis text = ⟨"neutral".data, 1/2⟩ := by
  simp [simple_sentiment_analysis, h, Nat.lt_irrefl]

/-! ## Lowering and counting over space-joined words -/

theorem pyLower_joinSep_fixed {ws : List (List Char)}
    (h : ∀ w ∈ ws, pyLower w = w) :
    pyLower (joinSep ' ' ws) = joinSep ' ' ws := by
  unfold pyLower
  rw [map_joinSep]
  have h2 : ws.map (List.map Char.toLower) = ws := by
    have hc := List.map_congr_left (l := ws) (f := List.map Char.toLower)
      (g := id) (fun a ha => h a ha)
    rw [hc, List.map_id]
  rw [h2, show Char.toLower ' ' = ' ' from by decide]

/-- Core counting argument shared by the all-positive and all-negative
cases: a join of words from `mainLex` makes the `mainLex` presence count
positive and the `othLex` presence count zero, provided no `othLex` word
occurs inside a `mainLex` word. -/
theorem lexicon_counts_joinSep (mainLex othLex : List (List Char))
    (hmainwf : ∀ w ∈ mainLex, w ≠ [] ∧ ' ' ∉ w ∧ pyLower w = w)
    (hothwf : ∀ n ∈ othLex, n ≠ [] ∧ ' ' ∉ n ∧ pyLower n = n)
    (hcross : ∀ w ∈ mainLex, ∀ n ∈ othLex, containsSub n w = false)
    (ws : List (List Char)) (hne : ws ≠ []) (hmem : ∀ w ∈ ws, w ∈ mainLex) :
    0 < (mainLex.filter (fun w => containsSub w (joinSep ' ' ws))).length ∧
    (othLex.filter (fun n => containsSub n (joinSep ' ' ws))).length = 0 := by
  constructor
  · obtain ⟨w₀, hw₀⟩ := List.exists_mem_of_ne_nil ws hne
    have hmw : w₀ ∈ mainLex := hmem w₀ hw₀
    obtain ⟨hne₀, hsp₀, _⟩ := hmainwf w₀ hmw
    have hocc : containsSub w₀ (joinSep ' ' ws) = true := by
      rw [containsSub_joinSep w₀ hne₀ hsp₀ ws]
      exact List.any_eq_true.mpr ⟨w₀, hw₀, containsSub_self w₀⟩
    exact List.length_pos.mpr
      (List.ne_nil_of_mem (List.mem_filter.mpr ⟨hmw, hocc⟩))
  · have hnil : othLex.filter (fun n => containsSub n (joinSep ' ' ws)) = [] := by
      refine List.filter_eq_nil_iff.mpr (fun n hn hcon => ?_)
      obtain ⟨hnen, hspn, _⟩ := hothwf n hn
      rw [containsSub_joinSep n hnen hspn ws] at hcon
      obtain ⟨w, hw, hwc⟩ := List.any_eq_true.mp hcon
      rw [hcross w (hmem w hw) n hn] at hwc
      exact Bool.false_ne_true hwc
    rw [hnil]
    rfl

/-! ## Non-emptiness of the pipeline stages -/

theorem fallbackKeywords_ne_nil (setOrder : List (List Char) → List (List Char))
    (text : List Char) : fallbackKeywords setOrder text ≠ [] := by
  unfold fallbackKeywords
  by_cases h : (setOrder (filteredTokens text)).take 10 = []
  · rw [if_pos h]
    decide
  · rw [if_neg h]
    exact h

theorem extract_keywords_ne_nil (env : Env) (text : List Char) :
    extract_keywords env text ≠ [] := by
  rcases h1 : env.rake with _ | rakeRanked
  · simp only [extract_keywords, h1]
    exact fallbackKeywords_ne_nil _ _
  · rcases h2 : rakeRanked text with _ | ranked
    · simp only [extract_keywords, h1, h2]
      exact fallbackKeywords_ne_nil _ _
    · by_cases h3 : ranked.take 10 = []
      · simp only [extract_keywords, h1, h2, h3, if_true]
        decide
      · simp only [extract_keywords, h1, h2]
        rw [if_neg h3]
        exact h3

theorem demo_moral_ne_nil (r : Nat) (text : List Char) :
    demo_moral_extraction r text ≠ [] := by
  unfold demo_moral_extraction
  by_cases h : text.length < 20
  · rw [if_pos h]
    decide
  · rw [if_neg h]
    exact append_ne_nil_left _ (append_ne_nil_left _ (by decide))

theorem demo_tone_transformation_eq (text ptone : List Char) :
    demo_tone_transformation text ptone =
      lookupD tonePrefixes ptone "[Rewritten] ".data ++ demoShorten text := rfl

/-- The leading bracketed tag of `a ++ b` is that of `a`, provided `a` is
nonempty and already closes its bracket. -/
theorem leadingTag_append (a b : List Char) (h1 : 1 ≤ a.length)
    (h2 : (a.drop 1).any (fun c => !(decide (c ≠ ']'))) = true) :
    leadingTag (a ++ b) = leadingTag a := by
  unfold leadingTag
  rw [List.drop_append_of_le_length h1, takeWhile_append_stop _ _ _ h2]

/-- the Mathlib function `List.dedup` is one legitimate listing of a Python set. -/
theorem isSetListing_dedup (l : List (List Char)) : isSetListing l l.dedup :=
  ⟨List.nodup_dedup l, fun _ => List.mem_dedup⟩

/-! ## Claims -/

/-- C3 (amended): the keyword-extraction fallback lowercases and
whitespace-splits the text, drops stop-word tokens and tokens shorter than
4 characters, deduplicates the remaining tokens — in the unspecified
iteration order of a Python set, not necessarily the order of first
appearance in the text (see the counterexample) — and returns at most 10 of
them (a fixed placeholder list when no token survives). -/
theorem claim_C3 (setOrder : List (List Char) → List (List Char))
    (text : List Char)
    (h : isSetListing (filteredTokens text) (setOrder (filteredTokens text))) :
    (fallbackKeywords setOrder text).length ≤ 10 ∧
    (fallbackKeywords setOrder text).Nodup ∧
    (filteredTokens text = [] →
      fallbackKeywords setOrder text = fallbackPlaceholder) ∧
    (filteredTokens text ≠ [] →
      (∀ w ∈ fallbackKeywords setOrder text,
        w ∈ splitWs (pyLower text) ∧ w ∉ common_words ∧ 3 < w.length)) := by
  obtain ⟨hnd, hmem⟩ := h
  by_cases hF : filteredTokens text = []
  · have hL : setOrder (filteredTokens text) = [] := by
      rw [List.eq_nil_iff_forall_not_mem]
      intro x hx
      have hxF := (hmem x).mp hx
      rw [hF] at hxF
      exact (List.not_mem_nil x) hxF
    have hfb : fallbackKeywords setOrder text = fallbackPlaceholder := by
      simp only [fallbackKeywords]
      rw [hL]
      rfl
    refine ⟨?_, ?_, fun _ => hfb, fun hc => absurd hF hc⟩
    · rw [hfb]; decide
    · rw [hfb]; decide
  · have hL : setOrder (filteredTokens text) ≠ [] := by
      obtain ⟨x, hx⟩ := List.exists_mem_of_ne_nil _ hF
      exact List.ne_nil_of_mem ((hmem x).mpr hx)
    have hdd : (setOrder (filteredTokens text)).take 10 ≠ [] := by
      rw [Ne, List.take_eq_nil_iff]
      push_neg
      exact ⟨by decide, hL⟩
    have hfb : fallbackKeywords setOrder text =
        (setOrder (filteredTokens text)).take 10 := by
      simp only [fallbackKeywords]
      rw [if_neg hdd]
    refine ⟨?_, ?_, fun hc => absurd hc hF, fun _ w hw => ?_⟩
    · rw [hfb, List.length_take]
      exact Nat.min_le_left _ _
    · rw [hfb]
      exact (List.take_sublist _ _).nodup hnd
    · rw [hfb] at hw
      have hwF : w ∈ filteredTokens text :=
        (hmem w).mp (List.take_subset _ _ hw)
      have hsplit := List.mem_filter.mp hwF
      exact ⟨hsplit.1, (of_decide_eq_true hsplit.2).1,
        (of_decide_eq_true hsplit.2).2⟩

theorem claim_C3_witness :
    (fallbackKeywords List.dedup "a good story about perseverance".data).length ≤ 10 ∧
    (fallbackKeywords List.dedup "a good story about perseverance".data).Nodup :=
  ⟨(claim_C3 List.dedup "a good story about perseverance".data
      (isSetListing_dedup _)).1,
   (claim_C3 List.dedup "a good story about perseverance".data
      (isSetListing_dedup _)).2.1⟩

/-- C3 counterexample: `List.dedup` is one legitimate listing of the Python
set of surviving tokens (duplicate-free, same members), yet on the text
"delta alpha delta" the fallback built on it returns ["alpha", "delta"]
while deduplication in order of first appearance returns
["delta", "alpha"]: `list(set(...))` does not preserve first-seen order. -/
theorem claim_C3_cex :
    isSetListing (filteredTokens "delta alpha delta".data)
      (List.dedup (filteredTokens "delta alpha delta".data)) ∧
    fallbackKeywords List.dedup "delta alpha delta".data =
      ["alpha".data, "delta".data] ∧
    (specDedupFirstSeen (filteredTokens "delta alpha delta".data)).take 10 =
      ["delta".data, "alpha".data] ∧
    fallbackKeywords List.dedup "delta alpha delta".data ≠
      (specDedupFirstSeen (filteredTokens "delta alpha delta".data)).take 10 :=
  ⟨isSetListing_dedup _, by decide, by decide, by decide⟩

/-- C1 (amended): for every valid input and optional tone, the keyword list
of `analyze_text` is non-empty whatever the capabilities do (both the RAKE
branch and the fallback substitute a fixed placeholder for an empty
candidate list), and the moral is non-empty whenever the moral stage runs a
fallback path — demo mode or a failed capability call.  When the moral
capability succeeds, the moral is its stripped completion, which the source
does not check for non-emptiness (see the counterexample). -/
theorem claim_C1 (env : Env) (r : Nat) (text : List Char)
    (target_tone : Option (List Char)) (hv : validInput text) :
    (analyze_text env r text target_tone).keywords ≠ [] ∧
    ((env.demoMode = true ∨ env.openaiMoral (moralPrompt text) = none) →
      (analyze_text env r text target_tone).moral ≠ []) := by
  constructor
  · exact extract_keywords_ne_nil env text
  · intro hfb
    show extract_moral env r text ≠ []
    unfold extract_moral
    rcases hfb with hdemo | hnone
    · rw [hdemo]
      simp only [if_true]
      exact demo_moral_ne_nil r text
    · cases hdm : env.demoMode with
      | true => simp only [if_true]; exact demo_moral_ne_nil r text
      | false =>
        simp only [Bool.false_eq_true, if_false]
        rw [hnone]
        exact demo_moral_ne_nil r text

theorem claim_C1_witness :
    (analyze_text envDemo 0 "I love this wonderful sunny day!".data none).keywords ≠ [] ∧
    (analyze_text envDemo 0 "I love this wonderful sunny day!".data none).moral ≠ [] :=
  ⟨(claim_C1 envDemo 0 "I love this wonderful sunny day!".data none
      ⟨by decide, by decide⟩).1,
   (claim_C1 envDemo 0 "I love this wonderful sunny day!".data none
      ⟨by decide, by decide⟩).2 (Or.inl rfl)⟩

/-- C1 counterexample: on a valid 50-character input, with the moral
capability succeeding but returning a whitespace-only completion, the moral
field of the result is the empty string — the claimed "non-empty `moral`
... regardless of whether the capability-backed paths succeed or fail" does
not hold on the capability-success path. -/
theorem claim_C1_cex :
    validInput "The quick brown fox jumps over the lazy dog today.".data ∧
    (analyze_text envBlankMoral 0
      "The quick brown fox jumps over the lazy dog today.".data none).moral = [] :=
  ⟨⟨by decide, by decide⟩, rfl⟩

/-- C2 (amended): the demo flag forces the deterministic fallback for the
two OpenAI-backed stages — moral extraction and tone transformation — which
never touch their capability when it is set; but keyword ranking and
sentiment classification are gated only by their own capability handles
(`self.rake`, the transformers import), which the demo flag does not
influence (last two conjuncts), so in demo mode their primary paths are
still attempted whenever those capabilities are available (see the
counterexample). -/
theorem claim_C2 (env : Env) (r : Nat) (text target_tone : List Char)
    (h : env.demoMode = true) :
    extract_moral env r text = demo_moral_extraction r text ∧
    transform_tone env text target_tone =
      demo_tone_transformation text target_tone ∧
    (∀ b : Bool, extract_keywords { env with demoMode := b } text =
      extract_keywords env text) ∧
    (∀ b : Bool, analyze_sentiment { env with demoMode := b } text =
      analyze_sentiment env text) := by
  refine ⟨?_, ?_, fun b => rfl, fun b => rfl⟩
  · unfold extract_moral
    rw [h]
    simp only [if_true]
  · unfold transform_tone
    rw [h]
    simp only [if_true]

theorem claim_C2_witness :
    extract_moral envDemo 0 "a tale of two cities".data =
      demo_moral_extraction 0 "a tale of two cities".data ∧
    transform_tone envDemo "a tale of two cities".data "formal".data =
      demo_tone_transformation "a tale of two cities".data "formal".data ∧
    extract_keywords { envDemo with demoMode := false } "a tale of two cities".data =
      extract_keywords envDemo "a tale of two cities".data ∧
    analyze_sentiment { envDemo with demoMode := false } "a tale of two cities".data =
      analyze_sentiment envDemo "a tale of two cities".data :=
  ⟨(claim_C2 envDemo 0 "a tale of two cities".data "formal".data rfl).1,
   (claim_C2 envDemo 0 "a tale of two cities".data "formal".data rfl).2.1,
   (claim_C2 envDemo 0 "a tale of two cities".data "formal".data rfl).2.2.1 false,
   (claim_C2 envDemo 0 "a tale of two cities".data "formal".data rfl).2.2.2 false⟩

/-- C2 counterexample: in a demo-mode process where the RAKE handle and the
transformers pipeline are nonetheless available (the source initializes
them independently of the demo-mode decision), `_extract_keywords` returns
the phrases from the ranker, not the deterministic tokens of the fallback, and
`_analyze_sentiment` returns the mapped label of the pipeline, not that of the simple
fallback — capability-backed paths are attempted in demo mode. -/
theorem claim_C2_cex :
    envDemoWithNlp.demoMode = true ∧
    extract_keywords envDemoWithNlp "hello world".data = ["ranked phrase".data] ∧
    fallbackKeywords envDemoWithNlp.setOrder "hello world".data =
      ["hello".data, "world".data] ∧
    extract_keywords envDemoWithNlp "hello world".data ≠
      fallbackKeywords envDemoWithNlp.setOrder "hello world".data ∧
    (analyze_sentiment envDemoWithNlp "hello world".data).label =
      "positive".data ∧
    (simple_sentiment_analysis "hello world".data).label = "neutral".data :=
  ⟨rfl, rfl, by decide, by decide, rfl, rfl⟩

/-- C4 (amended): the sentiment fallback counts how many *distinct* lexicon
words occur in the lowered text, each lexicon word contributing at most 1
however often it repeats (`sum(1 for word in positive_words if word in
text_lower)` iterates the lexicon, not the text); a strictly greater count
wins with confidence 0.8, equal counts (including both zero) give "neutral"
with 0.5.  The last conjunct expresses the repetition-insensitivity that
contradicts the occurrence counting of the claim: duplicating the entire text
(space-separated) never changes the verdict, whereas occurrence counts
would double. -/
theorem claim_C4 (text : List Char) :
    (negative_count (pyLower text) < positive_count (pyLower text) →
      simple_sentiment_analysis text = ⟨"positive".data, 4/5⟩) ∧
    (positive_count (pyLower text) < negative_count (pyLower text) →
      simple_sentiment_analysis text = ⟨"negative".data, 4/5⟩) ∧
    (positive_count (pyLower text) = negative_count (pyLower text) →
      simple_sentiment_analysis text = ⟨"neutral".data, 1/2⟩) ∧
    simple_sentiment_analysis (text ++ ' ' :: text) =
      simple_sentiment_analysis text := by
  have hlsp : Char.toLower ' ' = ' ' := by decide
  have hl : pyLower (text ++ ' ' :: text) = pyLower text ++ ' ' :: pyLower text := by
    simp [pyLower, List.map_append, hlsp]
  have hpc : positive_count (pyLower (text ++ ' ' :: text)) =
      positive_count (pyLower text) := by
    unfold positive_count
    rw [hl]
    refine congrArg List.length (List.filter_congr fun w hw => ?_)
    obtain ⟨hne, hsp, _⟩ := positive_words_wf w hw
    rw [containsSub_append_sep w _ _ hne hsp, Bool.or_self]
  have hnc : negative_count (pyLower (text ++ ' ' :: text)) =
      negative_count (pyLower text) := by
    unfold negative_count
    rw [hl]
    refine congrArg List.length (List.filter_congr fun w hw => ?_)
    obtain ⟨hne, hsp, _⟩ := negative_words_wf w hw
    rw [containsSub_append_sep w _ _ hne hsp, Bool.or_self]
  refine ⟨fun h => simple_sentiment_eq_positive h,
    fun h => simple_sentiment_eq_negative h,
    fun h => simple_sentiment_eq_neutral h, ?_⟩
  rcases Nat.lt_trichotomy (positive_count (pyLower text))
      (negative_count (pyLower text)) with h | h | h
  · rw [simple_sentiment_eq_negative h,
      simple_sentiment_eq_negative (by rw [hpc, hnc]; exact h)]
  · rw [simple_sentiment_eq_neutral h,
      simple_sentiment_eq_neutral (by rw [hpc, hnc]; exact h)]
  · rw [simple_sentiment_eq_positive h,
      simple_sentiment_eq_positive (by rw [hpc, hnc]; exact h)]

theorem claim_C4_witness :
    simple_sentiment_analysis "good".data = ⟨"positive".data, 4/5⟩ ∧
    simple_sentiment_analysis "bad".data = ⟨"negative".data, 4/5⟩ ∧
    simple_sentiment_analysis "bad good good".data = ⟨"neutral".data, 1/2⟩ :=
  ⟨(claim_C4 "good".data).1 (by decide),
   (claim_C4 "bad".data).2.1 (by decide),
   (claim_C4 "bad good good".data).2.2.1 (by decide)⟩

/-- C4 counterexample: in "bad good good" the lexicon word "good" occurs
twice and "bad" once, so counting every occurrence — as the claim words
it — yields label "positive" (2 > 1, via `specOccurrenceSentiment`); the
source counts each lexicon word at most once (1 = 1) and returns "neutral"
with confidence 0.5. -/
theorem claim_C4_cex :
    (positive_words.map
      (fun w => countOccurrences w (pyLower "bad good good".data))).sum = 2 ∧
    (negative_words.map
      (fun w => countOccurrences w (pyLower "bad good good".data))).sum = 1 ∧
    (specOccurrenceSentiment "bad good good".data).label = "positive".data ∧
    (simple_sentiment_analysis "bad good good".data).label = "neutral".data ∧
    positive_count (pyLower "bad good good".data) =
      negative_count (pyLower "bad good good".data) :=
  ⟨by decide, by decide, rfl, rfl, by decide⟩

/-- C5 (amended): for every supported tone the deterministic
tone-transformation fallback prepends the fixed bracketed tag mapped to
that tone and nothing else before the shortened text; the tag contains the
name of the tone itself (case-insensitively) for six of the eight tones, but not
for "informal" (tagged "Casual Version") or "casual" (tagged
"Relaxed Version"). -/
theorem claim_C5 (text ptone : List Char) (h : ptone ∈ supportedTones) :
    (lookupD tonePrefixes ptone "[Rewritten] ".data).isPrefixOf
      (demo_tone_transformation text ptone) = true ∧
    (lookupD tonePrefixes ptone "[Rewritten] ".data).head? = some '[' ∧
    leadingTag (demo_tone_transformation text ptone) =
      leadingTag (lookupD tonePrefixes ptone "[Rewritten] ".data) ∧
    (containsSub (pyLower ptone)
        (pyLower (leadingTag (demo_tone_transformation text ptone))) = true ↔
      (ptone ≠ "informal".data ∧ ptone ≠ "casual".data)) := by
  simp only [supportedTones, List.mem_cons, List.not_mem_nil, or_false] at h
  rcases h with h | h | h | h | h | h | h | h <;>
    subst h <;>
    refine ⟨?_, by decide, ?_, ?_⟩ <;>
    rw [demo_tone_transformation_eq]
  case _ => exact isPrefixOf_append_self _ _
  case _ => exact leadingTag_append _ _ (by decide) (by decide)
  case _ => rw [leadingTag_append _ _ (by decide) (by decide)]; decide
  case _ => exact isPrefixOf_append_self _ _
  case _ => exact leadingTag_append _ _ (by decide) (by decide)
  case _ => rw [leadingTag_append _ _ (by decide) (by decide)]; decide
  case _ => exact isPrefixOf_append_self _ _
  case _ => exact leadingTag_append _ _ (by decide) (by decide)
  case _ => rw [leadingTag_append _ _ (by decide) (by decide)]; decide
  case _ => exact isPrefixOf_append_self _ _
  case _ => exact leadingTag_append _ _ (by decide) (by decide)
  case _ => rw [leadingTag_append _ _ (by decide) (by decide)]; decide
  case _ => exact isPrefixOf_append_self _ _
  case _ => exact leadingTag_append _ _ (by decide) (by decide)
  case _ => rw [leadingTag_append _ _ (by decide) (by decide)]; decide
  case _ => exact isPrefixOf_append_self _ _
  case _ => exact leadingTag_append _ _ (by decide) (by decide)
  case _ => rw [leadingTag_append _ _ (by decide) (by decide)]; decide
  case _ => exact isPrefixOf_append_self _ _
  case _ => exact leadingTag_append _ _ (by decide) (by decide)
  case _ => rw [leadingTag_append _ _ (by decide) (by decide)]; decide
  case _ => exact isPrefixOf_append_self _ _
  case _ => exact leadingTag_append _ _ (by decide) (by decide)
  case _ => rw [leadingTag_append _ _ (by decide) (by decide)]; decide

theorem claim_C5_witness :
    (lookupD tonePrefixes "formal".data "[Rewritten] ".data).isPrefixOf
      (demo_tone_transformation "hi there".data "formal".data) = true ∧
    (lookupD tonePrefixes "formal".data "[Rewritten] ".data).head? = some '[' :=
  ⟨(claim_C5 "hi there".data "formal".data (by decide)).1,
   (claim_C5 "hi there".data "formal".data (by decide)).2.1⟩

/-- C5 counterexample: for the supported target tone "informal" the
fallback output is "[Casual Version] hello"; its bracketed tag
"Casual Version" does not contain the tone name "informal" in any casing
(the lowered tag has no occurrence of the lowered name, and lowering is
character-wise, so no case variant occurs either). -/
theorem claim_C5_cex :
    "informal".data ∈ supportedTones ∧
    demo_tone_transformation "hello".data "informal".data =
      "[Casual Version] hello".data ∧
    leadingTag (demo_tone_transformation "hello".data "informal".data) =
      "Casual Version".data ∧
    containsSub (pyLower "informal".data)
      (pyLower (leadingTag
        (demo_tone_transformation "hello".data "informal".data))) = false :=
  ⟨by decide, rfl, by decide, by decide⟩

/-- C6: the sentiment fallback labels a space-joined sequence of
positive-lexicon words "positive" with confidence 0.8, a space-joined
sequence of negative-lexicon words "negative" with confidence 0.8, and any
text whose two lexicon presence counts are equal (in particular text
containing no lexicon word at all) "neutral" with confidence 0.5. -/
theorem claim_C6 :
    (∀ ws : List (List Char), ws ≠ [] → (∀ w ∈ ws, w ∈ positive_words) →
      simple_sentiment_analysis (joinSep ' ' ws) = ⟨"positive".data, 4/5⟩) ∧
    (∀ ws : List (List Char), ws ≠ [] → (∀ w ∈ ws, w ∈ negative_words) →
      simple_sentiment_analysis (joinSep ' ' ws) = ⟨"negative".data, 4/5⟩) ∧
    (∀ text : List Char,
      positive_count (pyLower text) = negative_count (pyLower text) →
      simple_sentiment_analysis text = ⟨"neutral".data, 1/2⟩) := by
  refine ⟨fun ws hne hmem => ?_, fun ws hne hmem => ?_,
    fun text h => simple_sentiment_eq_neutral h⟩
  · have hlow : ∀ w ∈ ws, pyLower w = w :=
      fun w hw => (positive_words_wf w (hmem w hw)).2.2
    have hcounts := lexicon_counts_joinSep positive_words negative_words
      positive_words_wf negative_words_wf no_negative_inside_positive ws hne hmem
    apply simple_sentiment_eq_positive
    rw [pyLower_joinSep_fixed hlow]
    unfold positive_count negative_count
    rw [hcounts.2]
    exact hcounts.1
  · have hlow : ∀ w ∈ ws, pyLower w = w :=
      fun w hw => (negative_words_wf w (hmem w hw)).2.2
    have hcounts := lexicon_counts_joinSep negative_words positive_words
      negative_words_wf positive_words_wf no_positive_inside_negative ws hne hmem
    apply simple_sentiment_eq_negative
    rw [pyLower_joinSep_fixed hlow]
    unfold positive_count negative_count
    rw [hcounts.2]
    exact hcounts.1

/-- C6 witness: the three branches at concrete inputs.  `joinSep`
evaluates `["good"]` to `"good"` and `["bad", "ugly"]` to `"bad ugly"`. -/
theorem claim_C6_witness :
    simple_sentiment_analysis (joinSep ' ' ["good".data]) =
      ⟨"positive".data, 4/5⟩ ∧
    simple_sentiment_analysis (joinSep ' ' ["bad".data, "ugly".data]) =
      ⟨"negative".data, 4/5⟩ ∧
    simple_sentiment_analysis "an utterly uneventful afternoon".data =
      ⟨"neutral".data, 1/2⟩ :=
  ⟨claim_C6.1 ["good".data] (by decide) (by decide),
   claim_C6.2.1 ["bad".data, "ugly".data] (by decide) (by decide),
   claim_C6.2.2 "an utterly uneventful afternoon".data (by decide)⟩

/-- C7: with the demo flag set, the keyword list, the sentiment label and
the confidence of `analyze_text` do not depend on the per-call random draw
(`random.choice` in the moral fallback is the only per-call randomness), so
two calls with the same text and tone in the same process agree on all
three.  The process-fixed capability handles and set-iteration order live
in `Env` and are shared by the two calls. -/
theorem claim_C7 (env : Env) (r₁ r₂ : Nat) (text : List Char)
    (target_tone : Option (List Char)) (hdemo : env.demoMode = true)
    (hv : validInput text) :
    (analyze_text env r₁ text target_tone).keywords =
      (analyze_text env r₂ text target_tone).keywords ∧
    (analyze_text env r₁ text target_tone).original_tone =
      (analyze_text env r₂ text target_tone).original_tone ∧
    (analyze_text env r₁ text target_tone).confidence =
      (analyze_text env r₂ text target_tone).confidence :=
  ⟨rfl, rfl, rfl⟩

theorem claim_C7_witness :
    (analyze_text envDemo 0 "I love this wonderful sunny day!".data none).keywords =
      (analyze_text envDemo 1 "I love this wonderful sunny day!".data none).keywords ∧
    (analyze_text envDemo 0 "I love this wonderful sunny day!".data none).original_tone =
      (analyze_text envDemo 1 "I love this wonderful sunny day!".data none).original_tone ∧
    (analyze_text envDemo 0 "I love this wonderful sunny day!".data none).confidence =
      (analyze_text envDemo 1 "I love this wonderful sunny day!".data none).confidence :=
  claim_C7 envDemo 0 1 "I love this wonderful sunny day!".data none rfl
    ⟨by decide, by decide⟩

/-- C8: on input shorter than 20 characters the deterministic moral
extraction returns the fixed "too short" message, independently of the
random draw — this branch is deterministic. -/
theorem claim_C8 (text : List Char) (r r' : Nat) (h : text.length < 20) :
    demo_moral_extraction r text = tooShortMsg ∧
    demo_moral_extraction r text = demo_moral_extraction r' text := by
  unfold demo_moral_extraction
  rw [if_pos h, if_pos h]
  exact ⟨rfl, rfl⟩

theorem claim_C8_witness :
    demo_moral_extraction 0 "short".data = tooShortMsg ∧
    demo_moral_extraction 0 "short".data = demo_moral_extraction 7 "short".data :=
  claim_C8 "short".data 0 7 (by decide)

/-- C9: `transformed_text` is populated exactly when the request carried a
target tone, and `target_tone` echoes the tone value the caller supplied
(`none` when absent).  The request-level tone is a `ToneType` enum member,
whose `.value` is never the empty string, so the source truthiness test
`if target_tone:` coincides with presence. -/
theorem claim_C9 (env : Env) (r : Nat) (text : List Char)
    (tt : Option ToneType) :
    (analyze_request env r text tt).transformed_text.isSome = tt.isSome ∧
    (analyze_request env r text tt).target_tone = tt.map ToneType.value := by
  cases tt with
  | none => exact ⟨rfl, rfl⟩
  | some t =>
    refine ⟨?_, rfl⟩
    have hv : ¬t.value = [] := by cases t <;> decide
    simp [analyze_request, analyze_text, Option.map, hv]

/-- C10: the text "badge" contains no lexicon word as a standalone token,
yet the sentiment fallback labels it "negative" with confidence 0.8,
because the negative-lexicon entry "bad" matches as a substring.  (The
second conjunct checks the single whitespace token of "badge" against both
lexicons.) -/
theorem claim_C10 :
    simple_sentiment_analysis "badge".data = ⟨"negative".data, 4/5⟩ ∧
    (splitWs (pyLower "badge".data)).all
      (fun w => !positive_words.contains w && !negative_words.contains w) = true ∧
    containsSub "bad".data (pyLower "badge".data) = true :=
  ⟨rfl, by decide, by decide⟩

end TextAnalyzer
